import Mathlib

/-
Verification of the behavior-analysis / community-profiling / broadcast bot.

Shallow embedding conventions:
  * JavaScript numbers are modelled as rationals (ℚ); the one behaviour that
    matters beyond ℚ is NaN (0/0 and arithmetic on it), modelled by the
    inductive JSNum below.  Comparisons against NaN are false, as in JS.
  * JS strings are modelled as List Char; String literals are converted with
    Str.  String.length counts characters (the source texts considered are
    ASCII/BMP, where this agrees with JS).
  * Timestamps are milliseconds as ℤ; Date.getHours is modelled in
    UTC as (ts / 3600000) mod 24.
-/

/-- JS number that is either NaN or a rational value. -/
inductive JSNum where
  | nan : JSNum
  | val : ℚ → JSNum
deriving DecidableEq

/-- JS comparison x > c; false when x is NaN. -/
def JSNum.gtq : JSNum → ℚ → Bool
  | .nan, _ => false
  | .val q, c => decide (q > c)

/-- JS comparison x < c; false when x is NaN. -/
def JSNum.ltq : JSNum → ℚ → Bool
  | .nan, _ => false
  | .val q, c => decide (q < c)

/-- JS division a / b; the only zero-denominator case reached by the embedded
code is 0/0, which is NaN in JS. -/
def jdiv (a b : ℚ) : JSNum :=
  if b = 0 then JSNum.nan else JSNum.val (a / b)

/-- 1 - x, propagating NaN. -/
def joneSub : JSNum → JSNum
  | .nan => .nan
  | .val q => .val (1 - q)

/-- Math.min(x, c) for a JS number x: NaN propagates. -/
def jminq : JSNum → ℚ → JSNum
  | .nan, _ => .nan
  | .val q, c => .val (min q c)

/-- x * c, propagating NaN. -/
def jmulq : JSNum → ℚ → JSNum
  | .nan, _ => .nan
  | .val q, c => .val (q * c)

/-- Convert a Lean string literal to the List Char text representation. -/
def Str (s : String) : List Char := s.data

/-- Lowercase a JS string (the sources only use ASCII-relevant casing). -/
def toLowerText (s : List Char) : List Char := s.map Char.toLower

/-- Counts non-overlapping occurrences of pat in s scanning left to right,
matching the value of s.split(pat).length - 1 in JS.  The accumulator n is
the number of characters of a just-found match still to be skipped. -/
def countOccAux (pat : List Char) : ℕ → List Char → ℕ
  | _, [] => 0
  | Nat.succ n, _ :: t => countOccAux pat n t
  | 0, s@(_ :: t) =>
    if pat.isPrefixOf s then 1 + countOccAux pat (pat.length - 1) t
    else countOccAux pat 0 t

/-- Occurrence count of a (nonempty) pattern, as computed by the JS idiom
s.split(pat).length - 1. -/
def countOcc (s pat : List Char) : ℕ :=
  if pat = [] then 0 else countOccAux pat 0 s

/-- JS String.prototype.includes. -/
def textIncludes (s pat : List Char) : Bool := decide (0 < countOcc s pat)

/-- JS String.prototype.trim (strip leading/trailing whitespace). -/
def textTrim (s : List Char) : List Char :=
  (s.dropWhile Char.isWhitespace).reverse.dropWhile Char.isWhitespace |>.reverse

/-- Split a text at every character satisfying p (pieces may be empty). -/
def splitAtPred (p : Char → Bool) : List Char → List (List Char)
  | [] => [[]]
  | c :: t =>
    match splitAtPred p t with
    | [] => if p c then [[], []] else [[c]]
    | h :: r => if p c then [] :: h :: r else (c :: h) :: r

/-- JS s.split(sep) for a one-character plain-string separator. -/
def splitOnChar (sep : Char) (s : List Char) : List (List Char) :=
  splitAtPred (fun c => c = sep) s

/-- The distinct elements of a list in first-occurrence order (the contents of
a JS Set built by insertion); seen accumulates the elements already kept. -/
def uniqFirst [DecidableEq α] (seen : List α) : List α → List α
  | [] => []
  | a :: t => if a ∈ seen then uniqFirst seen t else a :: uniqFirst (a :: seen) t

/-- Number of occurrences of x in l. -/
def countEq [DecidableEq α] (l : List α) (x : α) : ℕ :=
  (l.filter (fun y => y = x)).length

/-- Stable insertion of an entry into a count-descending list (models the
stable JS sort (a, b) => b.count - a.count). -/
def insertByCount (e : List Char × ℕ) : List (List Char × ℕ) → List (List Char × ℕ)
  | [] => [e]
  | x :: t => if x.2 ≥ e.2 then x :: insertByCount e t else e :: x :: t

/-- Stable sort by descending count. -/
def sortByCountDesc (l : List (List Char × ℕ)) : List (List Char × ℕ) :=
  l.foldr insertByCount []

section BehaviorAnalyzer
/- Embedding of src/src/core/BehaviorAnalyzer.js. -/

/-- A message of the per-user history consumed by the behavior analyzer. -/
structure Msg where
  content : List Char
  userId : String
  timestamp : ℤ
  topics : List String
  mentions : List String
deriving DecidableEq

/-- BehaviorAnalyzer.analyzeMessageFrequency: history length divided by the
hours between now (Date.now()) and the last history entry, floored at 1 h. -/
def analyzeMessageFrequency (h : List Msg) (now : ℤ) : JSNum :=
  match h.getLast? with
  | none => JSNum.val 0
  | some last =>
    let hoursSpan : ℚ := ((now - last.timestamp : ℤ) : ℚ) / 3600000
    JSNum.val ((h.length : ℚ) / max hoursSpan 1)

/-- BehaviorAnalyzer.calculateAverageMessageLength. -/
def calculateAverageMessageLength (h : List Msg) : JSNum :=
  if h.length = 0 then JSNum.val 0
  else JSNum.val ((h.map (fun m => ((m.content.length : ℕ) : ℚ))).sum / (h.length : ℚ))

/-- BehaviorAnalyzer.analyzeTopicConsistency: max(0, 1 - unique/total). -/
def analyzeTopicConsistency (h : List Msg) : JSNum :=
  if h.length = 0 then JSNum.val 0
  else
    let uniq := uniqFirst [] ((h.map Msg.topics).flatten)
    JSNum.val (max 0 (1 - (uniq.length : ℚ) / (h.length : ℚ)))

/-- Conversation-initiation count: index 0 always counts, later messages count
when more than 5 minutes (300000 ms) after their predecessor. -/
def countInitiationsAux : Msg → List Msg → ℕ
  | _, [] => 0
  | prev, c :: r =>
    (if c.timestamp - prev.timestamp > 300000 then 1 else 0) + countInitiationsAux c r

def countInitiations : List Msg → ℕ
  | [] => 0
  | m :: rest => 1 + countInitiationsAux m rest

/-- BehaviorAnalyzer.analyzeInteractionPatterns.  The three ratio tests divide
by the history length; on an empty history they are NaN > x, hence false. -/
def analyzeInteractionPatterns (h : List Msg) : List String :=
  let len : ℕ := h.length
  let replyCount :=
    (h.filter (fun m => textIncludes m.content (Str "@") || decide (0 < m.mentions.length))).length
  let reactionCount :=
    (h.filter (fun m => textIncludes m.content (Str "👍") || textIncludes m.content (Str "❤️"))).length
  let initiationCount := countInitiations h
  (if (jdiv (replyCount : ℚ) (len : ℚ)).gtq (8/10) then ["high_reply_rate"] else []) ++
  (if (jdiv (reactionCount : ℚ) (len : ℚ)).gtq (5/10) then ["high_reaction_usage"] else []) ++
  (if (jdiv (initiationCount : ℚ) (len : ℚ)).gtq (3/10) then ["frequent_conversation_starter"] else [])

/-- Hour bucket of a timestamp (getHours, modelled in UTC). -/
def msgHour (ts : ℤ) : ℕ := ((ts.ediv 3600000).emod 24).toNat

structure ActivityPattern where
  hourlyDistribution : List ℕ
  peakHour : ℕ
  activitySpread : ℕ
  isUnusualPattern : Bool
deriving DecidableEq

/-- The 24 hourly buckets of a history (the hourlyActivity array). -/
def hourlyBuckets (h : List Msg) : List ℕ :=
  (List.range 24).map (fun hr => (h.filter (fun m => msgHour m.timestamp = hr)).length)

/-- BehaviorAnalyzer.analyzeActivityPattern: 24 hourly buckets; unusual when
the peak bucket exceeds 5 times the mean bucket. -/
def analyzeActivityPattern (h : List Msg) : ActivityPattern :=
  let hd := hourlyBuckets h
  let maxActivity := hd.foldr max 0
  let avgActivity : ℚ := ((hd.sum : ℕ) : ℚ) / 24
  { hourlyDistribution := hd
    peakHour := hd.indexOf maxActivity
    activitySpread := (hd.filter (fun c => decide (0 < c))).length
    isUnusualPattern := decide ((maxActivity : ℚ) > avgActivity * 5) }

/-- Gaps between consecutive cross-author messages that are under 5 minutes. -/
def responseGaps : List Msg → List ℤ
  | [] => []
  | [_] => []
  | a :: b :: rest =>
    (if a.userId = b.userId then []
     else if b.timestamp - a.timestamp < 300000 then [b.timestamp - a.timestamp] else []) ++
    responseGaps (b :: rest)

structure ResponsePatterns where
  averageResponseTime : JSNum
  totalResponses : ℕ
  fastResponses : ℕ
  conversationInitiation : ℕ
deriving DecidableEq

/-- BehaviorAnalyzer.analyzeResponsePatterns (conversationStarts stays empty in
the source, so conversationInitiation is always 0). -/
def analyzeResponsePatterns (h : List Msg) : ResponsePatterns :=
  let rts := responseGaps h
  { averageResponseTime :=
      if rts.length = 0 then JSNum.val 0
      else JSNum.val (((rts.map (fun t => (t : ℚ))).sum) / (rts.length : ℚ))
    totalResponses := rts.length
    fastResponses := (rts.filter (fun t => decide (t < 10000))).length
    conversationInitiation := 0 }

structure ContentAnalysis where
  repetitionRate : JSNum
  commonPhrases : List (List Char × ℕ)
  genericResponseRate : JSNum
  averageWordsPerMessage : JSNum
deriving DecidableEq

/-- The three anchored generic-response alternation patterns, as word lists. -/
def genericGroup1 : List (List Char) :=
  [Str "yes", Str "no", Str "ok", Str "sure", Str "thanks", Str "thank you"]
def genericGroup2 : List (List Char) :=
  [Str "lol", Str "haha", Str "nice", Str "cool", Str "awesome"]
def genericGroup3 : List (List Char) :=
  [Str "good", Str "great", Str "amazing", Str "perfect"]

/-- Whether a (lowercased) content matches one of the generic patterns, each of
which is an anchored alternation tested against content.trim(). -/
def isGenericResponse (content : List Char) : Bool :=
  decide (textTrim content ∈ genericGroup1) ||
  decide (textTrim content ∈ genericGroup2) ||
  decide (textTrim content ∈ genericGroup3)

/-- Sentence phrases of one content: split on the [.!?]+ class, trimmed, kept
when longer than 10 characters (the empty pieces a run of separators adds are
removed by the length filter, so the per-character split is equivalent). -/
def phrasesOf (content : List Char) : List (List Char) :=
  ((splitAtPred (fun c => c = '.' || c = '!' || c = '?') content).map textTrim).filter
    (fun p => decide (10 < p.length))

/-- BehaviorAnalyzer.analyzeContentPatterns.  On the empty history the two
rates are 0/0, i.e. NaN. -/
def lowerContents (h : List Msg) : List (List Char) :=
  h.map (fun m => toLowerText m.content)

def analyzeContentPatterns (h : List Msg) : ContentAnalysis :=
  let contents := lowerContents h
  let uniqueContents := uniqFirst [] contents
  let phrases := (contents.map phrasesOf).flatten
  let entries := (uniqFirst [] phrases).map (fun p => (p, countEq phrases p))
  let commonPhrases :=
    (sortByCountDesc (entries.filter (fun e => decide (2 < e.2)))).take 5
  let genericCount := (contents.filter isGenericResponse).length
  { repetitionRate := joneSub (jdiv (uniqueContents.length : ℚ) (contents.length : ℚ))
    commonPhrases := commonPhrases
    genericResponseRate := jdiv (genericCount : ℚ) (contents.length : ℚ)
    averageWordsPerMessage :=
      jdiv ((contents.map (fun c => ((splitOnChar ' ' c).length : ℚ))).sum) (contents.length : ℚ) }

structure BehaviorAnalysis where
  messageFrequency : JSNum
  averageMessageLength : JSNum
  topicConsistency : JSNum
  interactionPatterns : List String
  suspicionScore : ℕ
  riskFactors : List String
  activityPattern : ActivityPattern
  responsePatterns : ResponsePatterns
  contentAnalysis : ContentAnalysis
deriving DecidableEq

/-- The additive part of BehaviorAnalyzer.calculateSuspicionScore, before the
final cap. -/
def suspicionRawScore (a : BehaviorAnalysis) : ℕ :=
  (if a.messageFrequency.gtq 10 then 2 else 0) +
  (if a.messageFrequency.gtq 20 then 3 else 0) +
  (if a.averageMessageLength.ltq 10 || a.averageMessageLength.gtq 500 then 1 else 0) +
  (if a.contentAnalysis.repetitionRate.gtq (7/10) then 3 else 0) +
  (if a.contentAnalysis.repetitionRate.gtq (9/10) then 5 else 0) +
  (if a.contentAnalysis.genericResponseRate.gtq (8/10) then 2 else 0) +
  (if a.activityPattern.isUnusualPattern then 2 else 0) +
  (if (a.responsePatterns.fastResponses : ℚ) > (a.responsePatterns.totalResponses : ℚ) * (8/10)
     then 3 else 0) +
  (if a.topicConsistency.ltq (2/10) then 1 else 0)

/-- BehaviorAnalyzer.calculateSuspicionScore: the additive sum capped at 10. -/
def calculateSuspicionScore (a : BehaviorAnalysis) : ℕ :=
  min (suspicionRawScore a) 10

/-- BehaviorAnalyzer.identifyRiskFactors, in source push order. -/
def identifyRiskFactors (a : BehaviorAnalysis) : List String :=
  (if a.messageFrequency.gtq 15 then ["excessive_messaging_frequency"] else []) ++
  (if a.contentAnalysis.repetitionRate.gtq (8/10) then ["high_content_repetition"] else []) ++
  (if a.contentAnalysis.genericResponseRate.gtq (7/10) then ["generic_responses"] else []) ++
  (if a.activityPattern.isUnusualPattern then ["unusual_activity_timing"] else []) ++
  (if (a.responsePatterns.fastResponses : ℚ) > (a.responsePatterns.totalResponses : ℚ) * (7/10)
     then ["suspiciously_fast_responses"] else []) ++
  (if a.averageMessageLength.ltq 5 then ["extremely_short_messages"] else [])

/-- BehaviorAnalyzer.performBehaviorAnalysis.  now is the Date.now() value read
inside analyzeMessageFrequency. -/
def performBehaviorAnalysis (h : List Msg) (now : ℤ) : BehaviorAnalysis :=
  let base : BehaviorAnalysis :=
    { messageFrequency := analyzeMessageFrequency h now
      averageMessageLength := calculateAverageMessageLength h
      topicConsistency := analyzeTopicConsistency h
      interactionPatterns := analyzeInteractionPatterns h
      suspicionScore := 0
      riskFactors := []
      activityPattern := analyzeActivityPattern h
      responsePatterns := analyzeResponsePatterns h
      contentAnalysis := analyzeContentPatterns h }
  { base with
      suspicionScore := calculateSuspicionScore base
      riskFactors := identifyRiskFactors base }

end BehaviorAnalyzer

section BehaviorClaims

/-- C1: for every analysis record, the suspicion score computed by
calculateSuspicionScore lies in [0, 10] and equals the minimum of the
additive raw sum and 10; the same holds for the score produced by a full
performBehaviorAnalysis run on any history. -/
theorem c1_suspicion_score_in_range :
    (∀ a : BehaviorAnalysis,
      calculateSuspicionScore a = min (suspicionRawScore a) 10 ∧
      0 ≤ calculateSuspicionScore a ∧ calculateSuspicionScore a ≤ 10)
    ∧ ∀ (h : List Msg) (now : ℤ),
      (performBehaviorAnalysis h now).suspicionScore =
        min (suspicionRawScore (performBehaviorAnalysis h now)) 10 ∧
      0 ≤ (performBehaviorAnalysis h now).suspicionScore ∧
      (performBehaviorAnalysis h now).suspicionScore ≤ 10 :=
  ⟨fun _ => ⟨rfl, Nat.zero_le _, Nat.min_le_right _ _⟩,
   fun _ _ => ⟨rfl, Nat.zero_le _, Nat.min_le_right _ _⟩⟩

/-- The derived-statistics record of the C2 example: frequency 25/h,
repetition rate 0.95, generic-response rate 0.85, average length 8, all other
signals silent (as the example's 2+3+1+3+5+2 sum presumes). -/
def exampleStatsC2 : BehaviorAnalysis :=
  { messageFrequency := JSNum.val 25
    averageMessageLength := JSNum.val 8
    topicConsistency := JSNum.val (1/2)
    interactionPatterns := []
    suspicionScore := 0
    riskFactors := []
    activityPattern :=
      { hourlyDistribution := [], peakHour := 0, activitySpread := 0, isUnusualPattern := false }
    responsePatterns :=
      { averageResponseTime := JSNum.val 0, totalResponses := 0, fastResponses := 0
        conversationInitiation := 0 }
    contentAnalysis :=
      { repetitionRate := JSNum.val (19/20), commonPhrases := []
        genericResponseRate := JSNum.val (17/20), averageWordsPerMessage := JSNum.val 0 } }

/-- C2 counterexample: at the example's statistics the score is 10, but the
risk-factor list does NOT contain extremely_short_messages, because that
factor requires average length < 5 and the example's average length is 8. -/
theorem c2_counterexample :
    calculateSuspicionScore exampleStatsC2 = 10 ∧
    "extremely_short_messages" ∉ identifyRiskFactors exampleStatsC2 := by
  norm_num [suspicionRawScore, calculateSuspicionScore, identifyRiskFactors, exampleStatsC2,
    JSNum.gtq, JSNum.ltq]
  decide

/-- C2 amended: at the example's statistics the raw sum is 16 = 2+3+1+3+5+2,
the score is min(16,10) = 10, and the identified risk factors are exactly
excessive_messaging_frequency, high_content_repetition and generic_responses
(extremely_short_messages does not fire since 8 is not below the factor's
cut point 5). -/
theorem c2_example_score :
    suspicionRawScore exampleStatsC2 = 16 ∧
    calculateSuspicionScore exampleStatsC2 = 10 ∧
    identifyRiskFactors exampleStatsC2 =
      ["excessive_messaging_frequency", "high_content_repetition", "generic_responses"] := by
  norm_num [suspicionRawScore, calculateSuspicionScore, identifyRiskFactors, exampleStatsC2,
    JSNum.gtq, JSNum.ltq]

/-- An 11-message history, all at timestamp 0, single-character distinct
contents, one author. -/
def mkMsgC3 (c : Char) : Msg :=
  { content := [c], userId := "u", timestamp := 0, topics := [], mentions := [] }

def historyC3 : List Msg :=
  [mkMsgC3 'a', mkMsgC3 'b', mkMsgC3 'c', mkMsgC3 'd', mkMsgC3 'e', mkMsgC3 'f',
   mkMsgC3 'g', mkMsgC3 'h', mkMsgC3 'i', mkMsgC3 'j', mkMsgC3 'k']

/-- C3 counterexample: the very same history analyzed at two different
wall-clock instants yields different suspicion scores (5 at time 0, when the
11 messages fall within one hour, versus 3 eleven hours later), because
analyzeMessageFrequency reads Date.now(). -/
theorem c3_counterexample :
    (performBehaviorAnalysis historyC3 0).suspicionScore = 5 ∧
    (performBehaviorAnalysis historyC3 39600000).suspicionScore = 3 ∧
    (performBehaviorAnalysis historyC3 0).suspicionScore ≠
      (performBehaviorAnalysis historyC3 39600000).suspicionScore := by
  have hlast : historyC3.getLast? = some (mkMsgC3 'k') := by decide
  have hlen : historyC3.length = 11 := by decide
  have h1a : analyzeMessageFrequency historyC3 0 = JSNum.val 11 := by
    norm_num [analyzeMessageFrequency, hlast, hlen, mkMsgC3]
  have h1b : analyzeMessageFrequency historyC3 39600000 = JSNum.val 1 := by
    norm_num [analyzeMessageFrequency, hlast, hlen, mkMsgC3]
  have hmapq : historyC3.map (fun m => ((m.content.length : ℕ) : ℚ)) = List.replicate 11 1 := by
    norm_num [historyC3, mkMsgC3, List.replicate]
  have h2 : calculateAverageMessageLength historyC3 = JSNum.val 1 := by
    norm_num [calculateAverageMessageLength, hlen, hmapq, List.sum_replicate]
  have htop : (historyC3.map Msg.topics).flatten = ([] : List String) := by decide
  have h3 : analyzeTopicConsistency historyC3 = JSNum.val 1 := by
    norm_num [analyzeTopicConsistency, hlen, htop, uniqFirst]
  have huniq : (uniqFirst [] (lowerContents historyC3)).length = 11 := by decide
  have hlcl : (lowerContents historyC3).length = 11 := by decide
  have hgen : ((lowerContents historyC3).filter isGenericResponse).length = 0 := by decide
  have h4a : (analyzeContentPatterns historyC3).repetitionRate = JSNum.val 0 := by
    simp only [analyzeContentPatterns]
    rw [huniq, hlcl]
    norm_num [jdiv, joneSub]
  have h4b : (analyzeContentPatterns historyC3).genericResponseRate = JSNum.val 0 := by
    simp only [analyzeContentPatterns]
    rw [hgen, hlcl]
    norm_num [jdiv]
  have hbuckets : hourlyBuckets historyC3 = 11 :: List.replicate 23 0 := by decide
  have hmax : List.foldr max 0 (11 :: List.replicate 23 0) = 11 := by decide
  have hsum : (11 :: List.replicate 23 0).sum = 11 := by decide
  have hactU : (analyzeActivityPattern historyC3).isUnusualPattern = true := by
    simp only [analyzeActivityPattern]
    rw [hbuckets, hmax, hsum]
    norm_num
  have hgaps : responseGaps historyC3 = [] := by decide
  have hrespT : (analyzeResponsePatterns historyC3).totalResponses = 0 := by
    simp only [analyzeResponsePatterns]
    rw [hgaps]
    norm_num
  have hrespF : (analyzeResponsePatterns historyC3).fastResponses = 0 := by
    simp only [analyzeResponsePatterns]
    rw [hgaps]
    norm_num
  have s1 : (performBehaviorAnalysis historyC3 0).suspicionScore = 5 := by
    simp only [performBehaviorAnalysis, calculateSuspicionScore, suspicionRawScore,
      h1a, h2, h3, h4a, h4b, hactU, hrespT, hrespF]
    norm_num [JSNum.gtq, JSNum.ltq]
  have s2 : (performBehaviorAnalysis historyC3 39600000).suspicionScore = 3 := by
    simp only [performBehaviorAnalysis, calculateSuspicionScore, suspicionRawScore,
      h1b, h2, h3, h4a, h4b, hactU, hrespT, hrespF]
    norm_num [JSNum.gtq, JSNum.ltq]
  refine ⟨s1, s2, ?_⟩
  rw [s1, s2]
  decide

/-- C3 amended: every derived statistic except the message frequency is a
function of the history alone; the frequency — and through it the suspicion
score and risk factors — also depends on the wall-clock instant now, and the
analysis is deterministic once both the history and that instant are fixed. -/
theorem c3_determinism (h : List Msg) (now1 now2 : ℤ) :
    (performBehaviorAnalysis h now1).averageMessageLength =
      (performBehaviorAnalysis h now2).averageMessageLength
    ∧ (performBehaviorAnalysis h now1).topicConsistency =
      (performBehaviorAnalysis h now2).topicConsistency
    ∧ (performBehaviorAnalysis h now1).interactionPatterns =
      (performBehaviorAnalysis h now2).interactionPatterns
    ∧ (performBehaviorAnalysis h now1).activityPattern =
      (performBehaviorAnalysis h now2).activityPattern
    ∧ (performBehaviorAnalysis h now1).responsePatterns =
      (performBehaviorAnalysis h now2).responsePatterns
    ∧ (performBehaviorAnalysis h now1).contentAnalysis =
      (performBehaviorAnalysis h now2).contentAnalysis
    ∧ (now1 = now2 → performBehaviorAnalysis h now1 = performBehaviorAnalysis h now2) := by
  refine ⟨rfl, rfl, rfl, rfl, rfl, rfl, fun e => ?_⟩
  rw [e]

/-- C3 witness: the determinism theorem applied at a concrete history and a
concrete instant. -/
theorem c3_determinism_witness :
    performBehaviorAnalysis historyC3 0 = performBehaviorAnalysis historyC3 0 :=
  (c3_determinism historyC3 0 0).2.2.2.2.2.2 rfl

/-- C7 counterexample: on the empty history the suspicion score is 2, not 0
(average length 0 < 10 contributes 1, topic consistency 0 < 0.2 contributes
1). -/
theorem c7_counterexample :
    (performBehaviorAnalysis [] 0).suspicionScore ≠ 0 ∧
    (performBehaviorAnalysis [] 0).suspicionScore = 2 := by
  norm_num [performBehaviorAnalysis, analyzeMessageFrequency, calculateAverageMessageLength,
    analyzeTopicConsistency, analyzeInteractionPatterns, analyzeActivityPattern, hourlyBuckets,
    analyzeResponsePatterns, responseGaps, analyzeContentPatterns, lowerContents, phrasesOf,
    uniqFirst, countEq, sortByCountDesc, isGenericResponse, calculateSuspicionScore,
    suspicionRawScore, identifyRiskFactors, jdiv, joneSub, JSNum.gtq, JSNum.ltq, textIncludes,
    countOcc, countInitiations]
  have hmax : List.foldr max 0 (List.replicate 24 0) = 0 := by decide
  simp [hmax]

/-- C7 amended: on the empty history every derived statistic defaults to zero
or empty (frequency 0, average length 0, topic consistency 0, no interaction
patterns, no common phrases), but the suspicion score is 2 — the zero average
length fires the short-message score branch and the zero topic consistency
fires the low-consistency branch — and the zero average length also fires the
extremely_short_messages risk factor. -/
theorem c7_empty_history (now : ℤ) :
    (performBehaviorAnalysis [] now).messageFrequency = JSNum.val 0
    ∧ (performBehaviorAnalysis [] now).averageMessageLength = JSNum.val 0
    ∧ (performBehaviorAnalysis [] now).topicConsistency = JSNum.val 0
    ∧ (performBehaviorAnalysis [] now).interactionPatterns = []
    ∧ (performBehaviorAnalysis [] now).contentAnalysis.commonPhrases = []
    ∧ (performBehaviorAnalysis [] now).suspicionScore = 2
    ∧ (performBehaviorAnalysis [] now).riskFactors = ["extremely_short_messages"] := by
  norm_num [performBehaviorAnalysis, analyzeMessageFrequency, calculateAverageMessageLength,
    analyzeTopicConsistency, analyzeInteractionPatterns, analyzeActivityPattern, hourlyBuckets,
    analyzeResponsePatterns, responseGaps, analyzeContentPatterns, lowerContents, phrasesOf,
    uniqFirst, countEq, sortByCountDesc, isGenericResponse, calculateSuspicionScore,
    suspicionRawScore, identifyRiskFactors, jdiv, joneSub, JSNum.gtq, JSNum.ltq, textIncludes,
    countOcc, countInitiations]
  have hmax : List.foldr max 0 (List.replicate 24 0) = 0 := by decide
  simp [hmax]

end BehaviorClaims

section ServerIntelligence
/- Embedding of ServerIntelligence.categorizeProject
   (src/src/core/MessageProcessor.js, second module). -/

inductive ProjectType where
  | defi | nft | gaming | infrastructure | meme | unknown
deriving DecidableEq

def defiKeywords : List (List Char) :=
  [Str "defi", Str "swap", Str "dex", Str "yield", Str "farming", Str "liquidity", Str "staking"]
def nftKeywords : List (List Char) :=
  [Str "nft", Str "collectible", Str "art", Str "mint", Str "opensea", Str "marketplace"]
def gamingKeywords : List (List Char) :=
  [Str "game", Str "gaming", Str "play", Str "earn", Str "metaverse", Str "avatar"]
def infrastructureKeywords : List (List Char) :=
  [Str "blockchain", Str "protocol", Str "network", Str "validator", Str "node"]
def memeKeywords : List (List Char) :=
  [Str "meme", Str "doge", Str "shib", Str "moon", Str "diamond", Str "hands"]

/-- Keyword-occurrence score of one candidate type over the combined text:
the sum over the type's keywords of combinedText.split(keyword).length - 1. -/
def typeScore (text : List Char) (kws : List (List Char)) : ℕ :=
  (kws.map (fun kw => countOcc text kw)).sum

/-- The indicators object, in its insertion (= iteration) order. -/
def projectIndicators : List (ProjectType × List (List Char)) :=
  [(ProjectType.defi, defiKeywords), (ProjectType.nft, nftKeywords),
   (ProjectType.gaming, gamingKeywords), (ProjectType.infrastructure, infrastructureKeywords),
   (ProjectType.meme, memeKeywords)]

/-- ServerIntelligence.categorizeProject: fold over the indicator entries with
maxScore starting at 0 and detectedType starting at unknown, updating only on
a strictly greater score. -/
def categorizeProject (text : List Char) : ProjectType :=
  (projectIndicators.foldl
    (fun best p => if typeScore text p.2 > best.1 then (typeScore text p.2, p.1) else best)
    (0, ProjectType.unknown)).2

/-- The tie text for the C4 counterexample: defi and nft both score 1. -/
def textC4 : List Char := Str "defi nft"

/-- C4 counterexample: on a text where defi and nft tie for the strictly
highest score, the classifier returns defi (the first type in iteration order
to reach the maximum), not unknown as the claim requires for ties. -/
theorem c4_counterexample :
    typeScore textC4 defiKeywords = 1 ∧ typeScore textC4 nftKeywords = 1 ∧
    typeScore textC4 gamingKeywords = 0 ∧ typeScore textC4 infrastructureKeywords = 0 ∧
    typeScore textC4 memeKeywords = 0 ∧
    categorizeProject textC4 = ProjectType.defi ∧ ProjectType.defi ≠ ProjectType.unknown := by
  decide

/-- C4 amended: the classifier selects the type with the strictly highest
keyword score, and returns unknown when every type scores zero; but on a tie
for the maximum the selected type is the first in the fixed iteration order
(defi, nft, gaming, infrastructure, meme) to attain it, not unknown.  The six
conjuncts characterize the result: all-zero gives unknown, and each type wins
exactly when it strictly beats every earlier type and weakly beats every later
one (with a positive score). -/
theorem c4_classification (text : List Char) :
    ((typeScore text defiKeywords = 0 ∧ typeScore text nftKeywords = 0 ∧
      typeScore text gamingKeywords = 0 ∧ typeScore text infrastructureKeywords = 0 ∧
      typeScore text memeKeywords = 0) → categorizeProject text = ProjectType.unknown)
    ∧ (0 < typeScore text defiKeywords →
       typeScore text nftKeywords ≤ typeScore text defiKeywords →
       typeScore text gamingKeywords ≤ typeScore text defiKeywords →
       typeScore text infrastructureKeywords ≤ typeScore text defiKeywords →
       typeScore text memeKeywords ≤ typeScore text defiKeywords →
       categorizeProject text = ProjectType.defi)
    ∧ (typeScore text defiKeywords < typeScore text nftKeywords →
       typeScore text gamingKeywords ≤ typeScore text nftKeywords →
       typeScore text infrastructureKeywords ≤ typeScore text nftKeywords →
       typeScore text memeKeywords ≤ typeScore text nftKeywords →
       categorizeProject text = ProjectType.nft)
    ∧ (typeScore text defiKeywords < typeScore text gamingKeywords →
       typeScore text nftKeywords < typeScore text gamingKeywords →
       typeScore text infrastructureKeywords ≤ typeScore text gamingKeywords →
       typeScore text memeKeywords ≤ typeScore text gamingKeywords →
       categorizeProject text = ProjectType.gaming)
    ∧ (typeScore text defiKeywords < typeScore text infrastructureKeywords →
       typeScore text nftKeywords < typeScore text infrastructureKeywords →
       typeScore text gamingKeywords < typeScore text infrastructureKeywords →
       typeScore text memeKeywords ≤ typeScore text infrastructureKeywords →
       categorizeProject text = ProjectType.infrastructure)
    ∧ (typeScore text defiKeywords < typeScore text memeKeywords →
       typeScore text nftKeywords < typeScore text memeKeywords →
       typeScore text gamingKeywords < typeScore text memeKeywords →
       typeScore text infrastructureKeywords < typeScore text memeKeywords →
       categorizeProject text = ProjectType.meme) := by
  simp only [categorizeProject, projectIndicators, List.foldl_cons, List.foldl_nil]
  generalize typeScore text defiKeywords = s1
  generalize typeScore text nftKeywords = s2
  generalize typeScore text gamingKeywords = s3
  generalize typeScore text infrastructureKeywords = s4
  generalize typeScore text memeKeywords = s5
  refine ⟨?_, ?_, ?_, ?_, ?_, ?_⟩ <;>
    (intros
     split_ifs <;> dsimp only at * <;> first | rfl | omega)

/-- C4 witness: the classification theorem applied to a text where the defi
keywords strictly dominate. -/
theorem c4_classification_witness :
    categorizeProject (Str "defi yield farming staking") = ProjectType.defi :=
  (c4_classification (Str "defi yield farming staking")).2.1
    (by decide) (by decide) (by decide) (by decide) (by decide)

end ServerIntelligence

section BroadcastHub
/- Embedding of the WebSocketManager (src/unnamed/part_003): live clients map,
server-connection index, register / disconnect / heartbeat events and
broadcast fan-out.  JS Maps keyed by strings are modelled as association
lists; JS Sets of client ids as lists without duplicates by construction. -/

/-- Lookup in a JS-Map-like association list (first matching key). -/
def mapGet (m : List (String × α)) (k : String) : Option α :=
  match m with
  | [] => none
  | (k2, v) :: t => if k2 = k then some v else mapGet t k

/-- JS Map.set: replace the entry in place, or append a new one. -/
def mapSet (m : List (String × α)) (k : String) (v : α) : List (String × α) :=
  match m with
  | [] => [(k, v)]
  | (k2, v2) :: t => if k2 = k then (k, v) :: t else (k2, v2) :: mapSet t k v

/-- JS Map.delete (keys are unique by construction). -/
def mapDel (m : List (String × α)) (k : String) : List (String × α) :=
  match m with
  | [] => []
  | (k2, v2) :: t => if k2 = k then t else (k2, v2) :: mapDel t k

/-- JS Set.add. -/
def setAdd (s : List String) (x : String) : List String :=
  if x ∈ s then s else s ++ [x]

/-- JS Set.delete. -/
def setDel (s : List String) (x : String) : List String :=
  s.filter (fun y => y ≠ x)

/-- One observer connection: its registered server id (null until
registration) and its heartbeat liveness flag. -/
structure ClientInfo where
  serverId : Option String
  isAlive : Bool
deriving DecidableEq

/-- The WebSocketManager state: clients map and server-connections index. -/
structure HubState where
  clients : List (String × ClientInfo)
  serverConnections : List (String × List String)
deriving DecidableEq

def hubInit : HubState := { clients := [], serverConnections := [] }

/-- The connection handler: a freshly generated client id is inserted with no
server id and isAlive true.  generateClientId produces fresh ids, so a
colliding connect is modelled as a no-op. -/
def connectClient (st : HubState) (cid : String) : HubState :=
  match mapGet st.clients cid with
  | some _ => st
  | none =>
    { st with clients := mapSet st.clients cid { serverId := none, isAlive := true } }

/-- WebSocketManager.registerServerConnection: set the client's serverId and
add the client id to the server's connection set (created if absent). -/
def registerServerConnection (st : HubState) (cid sid : String) : HubState :=
  match mapGet st.clients cid with
  | none => st
  | some c =>
    { clients := mapSet st.clients cid { c with serverId := some sid }
      serverConnections :=
        mapSet st.serverConnections sid (setAdd ((mapGet st.serverConnections sid).getD []) cid) }

/-- WebSocketManager.handleDisconnection: remove the client id from its
registered server's set (deleting the set when it becomes empty) and delete
the client. -/
def handleDisconnection (st : HubState) (cid : String) : HubState :=
  match mapGet st.clients cid with
  | none => st
  | some c =>
    let sc :=
      match c.serverId with
      | none => st.serverConnections
      | some sid =>
        match mapGet st.serverConnections sid with
        | none => st.serverConnections
        | some s =>
          let s2 := setDel s cid
          if s2 = [] then mapDel st.serverConnections sid
          else mapSet st.serverConnections sid s2
    { clients := mapDel st.clients cid, serverConnections := sc }

/-- A pong marks the client alive. -/
def pongClient (st : HubState) (cid : String) : HubState :=
  match mapGet st.clients cid with
  | none => st
  | some c => { st with clients := mapSet st.clients cid { c with isAlive := true } }

/-- One client's treatment in a heartbeat round: a client that did not answer
the previous ping is terminated and deregistered; otherwise it is re-marked
not-yet-responded. -/
def heartbeatCheck (st : HubState) (cid : String) : HubState :=
  match mapGet st.clients cid with
  | none => st
  | some c =>
    if c.isAlive then { st with clients := mapSet st.clients cid { c with isAlive := false } }
    else handleDisconnection st cid

/-- WebSocketManager.broadcastToServer: the set of client ids the message is
sent to — the members of the server's connection set that are (still) present
in the clients map with an open socket. -/
def broadcastToServer (st : HubState) (sid : String) : List String :=
  match mapGet st.serverConnections sid with
  | none => []
  | some s => s.filter (fun cid => (mapGet st.clients cid).isSome)

inductive HubEvent where
  | connect (cid : String)
  | register (cid sid : String)
  | disconnect (cid : String)
  | pong (cid : String)
  | heartbeat (cid : String)
deriving DecidableEq

def hubStep (st : HubState) : HubEvent → HubState
  | .connect cid => connectClient st cid
  | .register cid sid => registerServerConnection st cid sid
  | .disconnect cid => handleDisconnection st cid
  | .pong cid => pongClient st cid
  | .heartbeat cid => heartbeatCheck st cid

def hubRunFrom (st : HubState) (evs : List HubEvent) : HubState :=
  evs.foldl hubStep st

def hubRun (evs : List HubEvent) : HubState := hubRunFrom hubInit evs

/-- The event is not a re-registration under a different community: a register
event is only allowed for a client that is unregistered or already registered
to the same server. -/
def stepOk (st : HubState) : HubEvent → Bool
  | .register cid sid =>
    match mapGet st.clients cid with
    | none => true
    | some c => c.serverId = none || c.serverId = some sid
  | _ => true

/-- The whole event sequence contains no cross-community re-registration. -/
def noRereg (st : HubState) : List HubEvent → Bool
  | [] => true
  | e :: t => stepOk st e && noRereg (hubStep st e) t

/-- The registry invariant: server-connection keys are unique, every
registered set is nonempty, and every member of a server's set is a live
client whose registered server id is that server. -/
def HubInv (st : HubState) : Prop :=
  (st.serverConnections.map Prod.fst).Nodup ∧
  ∀ sid S, mapGet st.serverConnections sid = some S →
    S ≠ [] ∧ ∀ cid ∈ S, ∃ c, mapGet st.clients cid = some c ∧ c.serverId = some sid

end BroadcastHub

section HubLemmas

theorem mapGet_mapSet_self (m : List (String × α)) (k : String) (v : α) :
    mapGet (mapSet m k v) k = some v := by
  induction m with
  | nil => simp [mapSet, mapGet]
  | cons e t ih =>
    obtain ⟨k2, v2⟩ := e
    by_cases h : k2 = k
    · simp [mapSet, mapGet, h]
    · simp [mapSet, mapGet, h, ih]

theorem mapGet_mapSet_ne (m : List (String × α)) (k k' : String) (v : α) (h : k ≠ k') :
    mapGet (mapSet m k v) k' = mapGet m k' := by
  induction m with
  | nil => simp [mapSet, mapGet, h]
  | cons e t ih =>
    obtain ⟨k2, v2⟩ := e
    by_cases h2 : k2 = k
    · subst h2
      simp [mapSet, mapGet, h]
    · by_cases h3 : k2 = k'
      · subst h3
        simp [mapSet, mapGet, h2]
      · simp [mapSet, mapGet, h2, h3, ih]

theorem mapGet_mapDel_ne (m : List (String × α)) (k k' : String) (h : k ≠ k') :
    mapGet (mapDel m k) k' = mapGet m k' := by
  induction m with
  | nil => simp [mapDel]
  | cons e t ih =>
    obtain ⟨k2, v2⟩ := e
    by_cases h2 : k2 = k
    · subst h2
      simp [mapDel, mapGet, h]
    · by_cases h3 : k2 = k'
      · subst h3
        simp [mapDel, mapGet, h2]
      · simp [mapDel, mapGet, h2, h3, ih]

theorem mapGet_none_of_not_mem (m : List (String × α)) (k : String)
    (h : k ∉ m.map Prod.fst) : mapGet m k = none := by
  induction m with
  | nil => rfl
  | cons e t ih =>
    obtain ⟨k2, v2⟩ := e
    simp only [List.map_cons, List.mem_cons] at h
    push_neg at h
    have h1 : ¬ k2 = k := fun hh => h.1 hh.symm
    simp [mapGet, h1, ih h.2]

theorem mapGet_mapDel_self (m : List (String × α)) (k : String)
    (h : (m.map Prod.fst).Nodup) : mapGet (mapDel m k) k = none := by
  induction m with
  | nil => rfl
  | cons e t ih =>
    obtain ⟨k2, v2⟩ := e
    simp only [List.map_cons, List.nodup_cons] at h
    by_cases h2 : k2 = k
    · subst h2
      simpa [mapDel] using mapGet_none_of_not_mem t k2 h.1
    · simp [mapDel, mapGet, h2, ih h.2]

theorem keys_mapDel_sublist (m : List (String × α)) (k : String) :
    List.Sublist ((mapDel m k).map Prod.fst) (m.map Prod.fst) := by
  induction m with
  | nil => simp [mapDel]
  | cons e t ih =>
    obtain ⟨k2, v2⟩ := e
    by_cases h2 : k2 = k
    · simp only [mapDel, if_pos h2, List.map_cons]
      exact List.sublist_cons_of_sublist _ (List.Sublist.refl _)
    · simp only [mapDel, if_neg h2, List.map_cons]
      exact List.Sublist.cons₂ _ ih

theorem nodup_keys_mapDel (m : List (String × α)) (k : String)
    (h : (m.map Prod.fst).Nodup) : ((mapDel m k).map Prod.fst).Nodup :=
  List.Nodup.sublist (keys_mapDel_sublist m k) h

theorem mem_keys_mapSet (m : List (String × α)) (k : String) (v : α) (x : String)
    (h : x ∈ (mapSet m k v).map Prod.fst) : x ∈ m.map Prod.fst ∨ x = k := by
  induction m with
  | nil => simpa [mapSet] using h
  | cons e t ih =>
    obtain ⟨k2, v2⟩ := e
    by_cases h2 : k2 = k
    · subst h2
      simp only [mapSet, if_true, eq_self_iff_true, List.map_cons, List.mem_cons] at h ⊢
      tauto
    · simp only [mapSet, if_neg h2, List.map_cons, List.mem_cons] at h ⊢
      rcases h with h | h
      · exact Or.inl (Or.inl h)
      · rcases ih h with h3 | h3
        · exact Or.inl (Or.inr h3)
        · exact Or.inr h3

theorem nodup_keys_mapSet (m : List (String × α)) (k : String) (v : α)
    (h : (m.map Prod.fst).Nodup) : ((mapSet m k v).map Prod.fst).Nodup := by
  induction m with
  | nil => simp [mapSet]
  | cons e t ih =>
    obtain ⟨k2, v2⟩ := e
    simp only [List.map_cons, List.nodup_cons] at h
    by_cases h2 : k2 = k
    · subst h2
      simp only [mapSet, if_true, eq_self_iff_true, List.map_cons, List.nodup_cons]
      exact ⟨h.1, h.2⟩
    · simp only [mapSet, if_neg h2, List.map_cons, List.nodup_cons]
      refine ⟨fun hmem => ?_, ih h.2⟩
      rcases mem_keys_mapSet t k v k2 hmem with h3 | h3
      · exact h.1 h3
      · exact h2 h3

theorem mem_setAdd (s : List String) (a x : String) :
    x ∈ setAdd s a ↔ x ∈ s ∨ x = a := by
  by_cases h : a ∈ s
  · simp only [setAdd, if_pos h]
    constructor
    · exact Or.inl
    · rintro (hx | rfl)
      · exact hx
      · exact h
  · simp [setAdd, if_neg h]

theorem setAdd_ne_nil (s : List String) (a : String) : setAdd s a ≠ [] := by
  by_cases h : a ∈ s
  · simp only [setAdd, if_pos h]
    rintro rfl
    exact (List.not_mem_nil a) h
  · simp [setAdd, if_neg h]

theorem mem_setDel (s : List String) (a x : String) :
    x ∈ setDel s a ↔ x ∈ s ∧ x ≠ a := by
  simp [setDel, List.mem_filter]

end HubLemmas

theorem hubInv_init : HubInv hubInit := by
  refine ⟨List.nodup_nil, fun sid S hS => ?_⟩
  simp [hubInit, mapGet] at hS

theorem hubInv_connect (st : HubState) (cid : String) (h : HubInv st) :
    HubInv (connectClient st cid) := by
  unfold connectClient
  split
  · exact h
  · next heq =>
    refine ⟨h.1, fun sid S hS => ?_⟩
    obtain ⟨hne, hmem⟩ := h.2 sid S hS
    refine ⟨hne, fun cid2 hcid2 => ?_⟩
    obtain ⟨c2, hc2, hsid⟩ := hmem cid2 hcid2
    have hne2 : cid ≠ cid2 := by
      rintro rfl
      rw [heq] at hc2
      exact Option.noConfusion hc2
    exact ⟨c2, by rw [mapGet_mapSet_ne st.clients cid cid2 _ hne2]; exact hc2, hsid⟩

theorem hubInv_register (st : HubState) (cid sid : String) (h : HubInv st)
    (hok : stepOk st (HubEvent.register cid sid) = true) :
    HubInv (registerServerConnection st cid sid) := by
  unfold registerServerConnection
  split
  · exact h
  · next c heq =>
    have hok2 : c.serverId = none ∨ c.serverId = some sid := by
      simp only [stepOk] at hok
      rw [heq] at hok
      simpa using hok
    refine ⟨nodup_keys_mapSet _ _ _ h.1, fun sid2 S2 hS2 => ?_⟩
    by_cases hsid : sid = sid2
    · subst hsid
      rw [mapGet_mapSet_self] at hS2
      injection hS2 with hS2
      subst hS2
      refine ⟨setAdd_ne_nil _ _, fun cid2 hcid2 => ?_⟩
      rw [mem_setAdd] at hcid2
      by_cases hcc : cid = cid2
      · subst hcc
        exact ⟨{ c with serverId := some sid }, mapGet_mapSet_self _ _ _, rfl⟩
      · rcases hcid2 with hin | rfl
        · cases hsc : mapGet st.serverConnections sid with
          | none => rw [hsc] at hin; simp at hin
          | some S0 =>
            rw [hsc] at hin
            obtain ⟨c2, hc2, hs2⟩ := (h.2 sid S0 hsc).2 cid2 hin
            exact ⟨c2, by rw [mapGet_mapSet_ne _ _ _ _ hcc]; exact hc2, hs2⟩
        · exact absurd rfl hcc
    · rw [mapGet_mapSet_ne _ _ _ _ hsid] at hS2
      obtain ⟨hne0, hmem0⟩ := h.2 sid2 S2 hS2
      refine ⟨hne0, fun cid2 hcid2 => ?_⟩
      obtain ⟨c2, hc2, hs2⟩ := hmem0 cid2 hcid2
      have hnecid : cid ≠ cid2 := by
        rintro rfl
        rw [heq] at hc2
        injection hc2 with hcc
        subst hcc
        rcases hok2 with hnone | hsame
        · rw [hnone] at hs2
          exact Option.noConfusion hs2
        · rw [hsame] at hs2
          injection hs2 with hss
          exact hsid hss
      exact ⟨c2, by rw [mapGet_mapSet_ne _ _ _ _ hnecid]; exact hc2, hs2⟩

theorem hubInv_disconnection (st : HubState) (cid : String) (h : HubInv st) :
    HubInv (handleDisconnection st cid) := by
  unfold handleDisconnection
  split
  · exact h
  · next c heq =>
    cases hsrv : c.serverId with
    | none =>
      simp only [hsrv]
      refine ⟨h.1, fun sid2 S2 hS2 => ?_⟩
      obtain ⟨hne0, hmem0⟩ := h.2 sid2 S2 hS2
      refine ⟨hne0, fun cid2 hcid2 => ?_⟩
      obtain ⟨c2, hc2, hs2⟩ := hmem0 cid2 hcid2
      have hnecid : cid ≠ cid2 := by
        rintro rfl
        rw [heq] at hc2
        injection hc2 with hcc
        subst hcc
        rw [hsrv] at hs2
        exact Option.noConfusion hs2
      exact ⟨c2, by rw [mapGet_mapDel_ne _ _ _ hnecid]; exact hc2, hs2⟩
    | some sid0 =>
      simp only [hsrv]
      cases hsc : mapGet st.serverConnections sid0 with
      | none =>
        simp only []
        refine ⟨h.1, fun sid2 S2 hS2 => ?_⟩
        obtain ⟨hne0, hmem0⟩ := h.2 sid2 S2 hS2
        refine ⟨hne0, fun cid2 hcid2 => ?_⟩
        obtain ⟨c2, hc2, hs2⟩ := hmem0 cid2 hcid2
        have hnecid : cid ≠ cid2 := by
          rintro rfl
          rw [heq] at hc2
          injection hc2 with hcc
          subst hcc
          rw [hsrv] at hs2
          injection hs2 with hss
          subst hss
          rw [hsc] at hS2
          exact Option.noConfusion hS2
        exact ⟨c2, by rw [mapGet_mapDel_ne _ _ _ hnecid]; exact hc2, hs2⟩
      | some S0 =>
        simp only []
        by_cases hS2nil : setDel S0 cid = []
        · rw [if_pos hS2nil]
          refine ⟨nodup_keys_mapDel _ _ h.1, fun sid2 S2 hS2 => ?_⟩
          by_cases hss : sid0 = sid2
          · subst hss
            rw [mapGet_mapDel_self _ _ h.1] at hS2
            exact Option.noConfusion hS2
          · rw [mapGet_mapDel_ne _ _ _ hss] at hS2
            obtain ⟨hne0, hmem0⟩ := h.2 sid2 S2 hS2
            refine ⟨hne0, fun cid2 hcid2 => ?_⟩
            obtain ⟨c2, hc2, hs2⟩ := hmem0 cid2 hcid2
            have hnecid : cid ≠ cid2 := by
              rintro rfl
              rw [heq] at hc2
              injection hc2 with hcc
              subst hcc
              rw [hsrv] at hs2
              injection hs2 with hsseq
              exact hss hsseq
            exact ⟨c2, by rw [mapGet_mapDel_ne _ _ _ hnecid]; exact hc2, hs2⟩
        · rw [if_neg hS2nil]
          refine ⟨nodup_keys_mapSet _ _ _ h.1, fun sid2 S2 hS2 => ?_⟩
          by_cases hss : sid0 = sid2
          · subst hss
            rw [mapGet_mapSet_self] at hS2
            injection hS2 with hS2
            subst hS2
            refine ⟨hS2nil, fun cid2 hcid2 => ?_⟩
            rw [mem_setDel] at hcid2
            obtain ⟨c2, hc2, hs2⟩ := (h.2 sid0 S0 hsc).2 cid2 hcid2.1
            have hnecid : cid ≠ cid2 := fun hcc => hcid2.2 hcc.symm
            exact ⟨c2, by rw [mapGet_mapDel_ne _ _ _ hnecid]; exact hc2, hs2⟩
          · rw [mapGet_mapSet_ne _ _ _ _ hss] at hS2
            obtain ⟨hne0, hmem0⟩ := h.2 sid2 S2 hS2
            refine ⟨hne0, fun cid2 hcid2 => ?_⟩
            obtain ⟨c2, hc2, hs2⟩ := hmem0 cid2 hcid2
            have hnecid : cid ≠ cid2 := by
              rintro rfl
              rw [heq] at hc2
              injection hc2 with hcc
              subst hcc
              rw [hsrv] at hs2
              injection hs2 with hsseq
              exact hss hsseq
            exact ⟨c2, by rw [mapGet_mapDel_ne _ _ _ hnecid]; exact hc2, hs2⟩

theorem hubInv_pong (st : HubState) (cid : String) (h : HubInv st) :
    HubInv (pongClient st cid) := by
  unfold pongClient
  split
  · exact h
  · next c heq =>
    refine ⟨h.1, fun sid2 S2 hS2 => ?_⟩
    obtain ⟨hne0, hmem0⟩ := h.2 sid2 S2 hS2
    refine ⟨hne0, fun cid2 hcid2 => ?_⟩
    obtain ⟨c2, hc2, hs2⟩ := hmem0 cid2 hcid2
    by_cases hcc : cid = cid2
    · subst hcc
      rw [heq] at hc2
      injection hc2 with hcc2
      refine ⟨{ c with isAlive := true }, mapGet_mapSet_self _ _ _, ?_⟩
      rw [hcc2]
      exact hs2
    · exact ⟨c2, by rw [mapGet_mapSet_ne _ _ _ _ hcc]; exact hc2, hs2⟩

theorem hubInv_heartbeat (st : HubState) (cid : String) (h : HubInv st) :
    HubInv (heartbeatCheck st cid) := by
  unfold heartbeatCheck
  split
  · exact h
  · next c heq =>
    split
    · refine ⟨h.1, fun sid2 S2 hS2 => ?_⟩
      obtain ⟨hne0, hmem0⟩ := h.2 sid2 S2 hS2
      refine ⟨hne0, fun cid2 hcid2 => ?_⟩
      obtain ⟨c2, hc2, hs2⟩ := hmem0 cid2 hcid2
      by_cases hcc : cid = cid2
      · subst hcc
        rw [heq] at hc2
        injection hc2 with hcc2
        refine ⟨{ c with isAlive := false }, mapGet_mapSet_self _ _ _, ?_⟩
        rw [hcc2]
        exact hs2
      · exact ⟨c2, by rw [mapGet_mapSet_ne _ _ _ _ hcc]; exact hc2, hs2⟩
    · exact hubInv_disconnection st cid h

theorem hubInv_step (st : HubState) (e : HubEvent) (h : HubInv st)
    (hok : stepOk st e = true) : HubInv (hubStep st e) := by
  cases e with
  | connect cid => exact hubInv_connect st cid h
  | register cid sid => exact hubInv_register st cid sid h hok
  | disconnect cid => exact hubInv_disconnection st cid h
  | pong cid => exact hubInv_pong st cid h
  | heartbeat cid => exact hubInv_heartbeat st cid h

theorem hubInv_runFrom (evs : List HubEvent) (st : HubState) (h : HubInv st)
    (hok : noRereg st evs = true) : HubInv (hubRunFrom st evs) := by
  induction evs generalizing st with
  | nil => exact h
  | cons e t ih =>
    unfold noRereg at hok
    rw [Bool.and_eq_true] at hok
    exact ih (hubStep st e) (hubInv_step st e h hok.1) hok.2

theorem hubInv_run (evs : List HubEvent) (hok : noRereg hubInit evs = true) :
    HubInv (hubRun evs) :=
  hubInv_runFrom evs hubInit hubInv_init hok

/-- C5 amended: in every state reachable without cross-community
re-registration, broadcastToServer delivers only to connections whose
registered community id is the broadcast's community id; and when the
community has no entry in the registry the broadcast silently sends to
nobody.  (With re-registration permitted the first part fails, see the C5
counterexample.) -/
theorem c5_broadcast_isolation :
    (∀ (evs : List HubEvent) (sid cid : String),
      noRereg hubInit evs = true →
      cid ∈ broadcastToServer (hubRun evs) sid →
      ∃ c, mapGet (hubRun evs).clients cid = some c ∧ c.serverId = some sid)
    ∧ ∀ (st : HubState) (sid : String),
      mapGet st.serverConnections sid = none → broadcastToServer st sid = [] := by
  constructor
  · intro evs sid cid hok hmem
    have hinv := hubInv_run evs hok
    unfold broadcastToServer at hmem
    cases hsc : mapGet (hubRun evs).serverConnections sid with
    | none =>
      rw [hsc] at hmem
      simp at hmem
    | some S =>
      rw [hsc] at hmem
      exact (hinv.2 sid S hsc).2 cid (List.mem_of_mem_filter hmem)
  · intro st sid hnone
    unfold broadcastToServer
    rw [hnone]

def evsC5w : List HubEvent := [HubEvent.connect "a", HubEvent.register "a" "C1"]

/-- C5 witness: after a connect and a registration for C1, the broadcast
recipient "a" is indeed registered to C1. -/
theorem c5_broadcast_isolation_witness :
    ∃ c, mapGet (hubRun evsC5w).clients "a" = some c ∧ c.serverId = some "C1" :=
  c5_broadcast_isolation.1 evsC5w "C1" "a" (by decide) (by decide)

def evsC5c : List HubEvent :=
  [HubEvent.connect "a", HubEvent.register "a" "C1", HubEvent.register "a" "C2"]

/-- C5 counterexample: registerServerConnection never removes a connection
from its previous community's set, so after re-registering from C1 to C2 the
connection still receives C1 broadcasts although its registered community id
is C2. -/
theorem c5_counterexample :
    "a" ∈ broadcastToServer (hubRun evsC5c) "C1" ∧
    mapGet (hubRun evsC5c).clients "a" =
      some { serverId := some "C2", isAlive := true } ∧
    (some "C2" : Option String) ≠ some "C1" := by decide

/-- C10 amended: in every state reachable without cross-community
re-registration, every community entry of the connection index maps to a
nonempty set whose members are all keys of the live clients map.  (With
re-registration permitted this fails, see the C10 counterexample.) -/
theorem c10_registry_invariant (evs : List HubEvent) (sid : String) (S : List String)
    (hok : noRereg hubInit evs = true)
    (hS : mapGet (hubRun evs).serverConnections sid = some S) :
    S ≠ [] ∧ ∀ cid ∈ S, (mapGet (hubRun evs).clients cid).isSome := by
  have hinv := hubInv_run evs hok
  obtain ⟨hne, hmem⟩ := hinv.2 sid S hS
  refine ⟨hne, fun cid hcid => ?_⟩
  obtain ⟨c, hc, _⟩ := hmem cid hcid
  rw [hc]
  rfl

def evsC10w : List HubEvent := [HubEvent.connect "b", HubEvent.register "b" "C7"]

/-- C10 witness: the registry invariant applied to a concrete run. -/
theorem c10_registry_invariant_witness :
    (["b"] : List String) ≠ [] ∧
    ∀ cid ∈ (["b"] : List String), (mapGet (hubRun evsC10w).clients cid).isSome :=
  c10_registry_invariant evsC10w "C7" ["b"] (by decide) (by decide)

def evsC10c : List HubEvent :=
  [HubEvent.connect "b", HubEvent.register "b" "C1", HubEvent.register "b" "C2",
   HubEvent.disconnect "b"]

/-- C10 counterexample: after re-registering from C1 to C2 and disconnecting,
disconnection only cleans the C2 set (the client's current serverId), so the
C1 set still contains the fully disconnected connection id, which is no
longer a key of the clients map. -/
theorem c10_counterexample :
    mapGet (hubRun evsC10c).serverConnections "C1" = some ["b"] ∧
    mapGet (hubRun evsC10c).clients "b" = none := by decide

section QueueManager
/- Embedding of the QueueManager (src/unnamed/part_004): per-queue default
job options and the options the generic addJob actually attaches to a job. -/

/-- The options object a caller passes to QueueManager.addJob; a none field
models an absent key. -/
structure JobOptions where
  priority : Option ℤ
  delay : Option ℤ
  attempts : Option ℕ
deriving DecidableEq

/-- The job options addJob passes to queue.add. -/
structure EffectiveJobOptions where
  priority : ℤ
  delay : ℤ
  attempts : ℕ
deriving DecidableEq

/-- QueueManager.addJob builds
{ priority: options.priority || 0, delay: options.delay || 0,
  attempts: options.attempts || 3, ...options }: the spread re-applies every
present caller field last, so a present field always wins and an absent
attempts key becomes 3.  In Bull, per-job options override the queue's
defaultJobOptions, so this attempts value is the job's max attempts. -/
def addJobEffectiveOptions (o : JobOptions) : EffectiveJobOptions :=
  { priority := o.priority.getD 0
    delay := o.delay.getD 0
    attempts := o.attempts.getD 3 }

/-- The attempts field of each queue's defaultJobOptions, as configured in
QueueManager.initialize (the real-time queue's comment: real-time processing
should not retry). -/
def queueDefaultAttempts : String → Option ℕ
  | "message_analysis" => some 3
  | "server_profiling" => some 2
  | "behavior_analysis" => some 3
  | "real_time_processing" => some 1
  | _ => none

/-- The options passed by the dedicated helper addRealTimeProcessingJob:
{ priority, attempts: 1 }. -/
def addRealTimeProcessingJobOptions (priority : ℤ) : JobOptions :=
  { priority := some priority, delay := none, attempts := some 1 }

/-- Modelled from the spec: the scheduler's retry rule (section 4.4 / the Job
invariant) — a dispatched job that fails returns to waiting while attempts
remain, so the number of executions of a job is bounded by its max attempts;
outcomes lists the success flag of each would-be execution.  The dispatch
loop itself lives in the external Bull library, not in this repository. -/
def attemptsUsed (maxAttempts : ℕ) : List Bool → ℕ
  | [] => 0
  | ok :: rest =>
    if maxAttempts = 0 then 0
    else if ok then 1 else 1 + attemptsUsed (maxAttempts - 1) rest

/-- C6: the retry rule never executes a job more often than its max attempts;
but the real-time queue's configured attempts: 1 is overridden by the generic
addJob path, which forces attempts = options.attempts || 3 — so a real-time
job enqueued through addJob without an explicit attempts option has max
attempts 3 and an always-failing one is executed 3 times, not once.  (The
dedicated helper addRealTimeProcessingJob does pass attempts: 1.) -/
theorem c6_realtime_attempts :
    (∀ (m : ℕ) (outs : List Bool), attemptsUsed m outs ≤ m)
    ∧ queueDefaultAttempts "real_time_processing" = some 1
    ∧ (addJobEffectiveOptions { priority := some 10, delay := none, attempts := none }).attempts
        = 3
    ∧ (addJobEffectiveOptions (addRealTimeProcessingJobOptions 10)).attempts = 1
    ∧ attemptsUsed
        (addJobEffectiveOptions { priority := some 10, delay := none, attempts := none }).attempts
        [false, false, false] = 3 := by
  refine ⟨?_, rfl, rfl, rfl, rfl⟩
  intro m outs
  induction outs generalizing m with
  | nil => simp [attemptsUsed]
  | cons ok rest ih =>
    unfold attemptsUsed
    rcases Nat.eq_zero_or_pos m with hm | hm
    · simp [hm]
    · rw [if_neg (Nat.pos_iff_ne_zero.mp hm)]
      split
      · omega
      · have := ih (m - 1)
        omega

end QueueManager

section Analyzer
/- Embedding of the Analyzer (src/src/core/MessageProcessor.js, first module):
per-message feature extraction.  The natural / sentiment npm libraries it
calls are external collaborators: their data tables (AFINN lexicon, Porter
stemmer, tf-idf weighting) are parameters of the embedding; their
tokenization and aggregation structure is modelled below. -/

/-- A word character: the tokenizer splits on runs of anything else and
drops the empty pieces. -/
def wordChar (c : Char) : Bool := c.isAlphanum || c = '_'

/-- The word tokenizer (natural WordTokenizer). -/
def tokenize (s : List Char) : List (List Char) :=
  (splitAtPred (fun c => !(wordChar c)) s).filter (fun w => w ≠ [])

structure SentimentResult where
  score : ℤ
  comparative : JSNum
  positive : List (List Char)
  negative : List (List Char)
deriving DecidableEq

/-- Modelled from the sentiment library: the content is tokenized, each
token's AFINN valence is summed into the score, the positive/negative tokens
are collected, and comparative is score/length when there are tokens, else
0.  The AFINN lexicon is external data, passed as afinn. -/
def sentimentAnalyze (afinn : List Char → ℤ) (content : List Char) : SentimentResult :=
  let toks := tokenize (toLowerText content)
  { score := (toks.map afinn).sum
    comparative :=
      if toks.length = 0 then JSNum.val 0
      else JSNum.val ((((toks.map afinn).sum : ℤ) : ℚ) / (toks.length : ℚ))
    positive := toks.filter (fun t => decide (0 < afinn t))
    negative := toks.filter (fun t => decide (afinn t < 0)) }

/-- Modelled from the natural TfIdf store used by extractTopics: documents
accumulate across calls and listTerms(0) lists the distinct terms of document
0 with their tf-idf weight; the numeric weighting is external, receiving the
term's count in document 0, the number of documents, and the number of
documents containing the term. -/
def listTermsDoc0 (weight : ℕ → ℕ → ℕ → ℚ) (docs : List (List (List Char))) :
    List (List Char × ℚ) :=
  let doc0 := docs.headD []
  (uniqFirst [] doc0).map
    (fun t => (t, weight (countEq doc0 t) docs.length (docs.filter (fun d => t ∈ d)).length))

/-- Stable insertion sort by descending tf-idf weight (listTerms returns the
terms best-first). -/
def insertByWeight (e : List Char × ℚ) : List (List Char × ℚ) → List (List Char × ℚ)
  | [] => [e]
  | x :: t => if x.2 ≥ e.2 then x :: insertByWeight e t else e :: x :: t

def sortByWeightDesc (l : List (List Char × ℚ)) : List (List Char × ℚ) :=
  l.foldr insertByWeight []

/-- MessageProcessor.extractTopics: stem the tokens, add them as a new tf-idf
document, keep the terms of document 0 whose tf-idf exceeds 0.1, top 5.  Note
that listTerms(0) reads document 0 — the first document ever added — so
priorDocs (the documents of earlier calls) is part of the state. -/
def extractTopics (stem : List Char → List Char) (weight : ℕ → ℕ → ℕ → ℚ)
    (priorDocs : List (List (List Char))) (tokens : List (List Char)) : List (List Char) :=
  let stemmed := tokens.map stem
  let docs := priorDocs ++ [stemmed]
  ((((sortByWeightDesc (listTermsDoc0 weight docs)).filter
      (fun p => decide (p.2 > (1/10 : ℚ)))).map Prod.fst).take 5)

/-- Match of the user-mention pattern at the head of the text:
the angle bracket, the at sign, an optional bang, digits, closing bracket. -/
def tryUserMention (s : List Char) : Option (List Char) :=
  match s with
  | '<' :: '@' :: rest =>
    let br : List Char × List Char :=
      match rest with
      | '!' :: r => (['!'], r)
      | _ => ([], rest)
    let ds := br.2.takeWhile Char.isDigit
    if ds = [] then none
    else
      match br.2.drop ds.length with
      | '>' :: _ => some ('<' :: '@' :: (br.1 ++ ds ++ ['>']))
      | _ => none
  | _ => none

/-- Match of the channel-mention pattern (bracket, hash, digits, bracket). -/
def tryChannelMention (s : List Char) : Option (List Char) :=
  match s with
  | '<' :: '#' :: rest =>
    let ds := rest.takeWhile Char.isDigit
    if ds = [] then none
    else
      match rest.drop ds.length with
      | '>' :: _ => some ('<' :: '#' :: (ds ++ ['>']))
      | _ => none
  | _ => none

/-- Match of the role-mention pattern (bracket, at, ampersand, digits,
bracket). -/
def tryRoleMention (s : List Char) : Option (List Char) :=
  match s with
  | '<' :: '@' :: '&' :: rest =>
    let ds := rest.takeWhile Char.isDigit
    if ds = [] then none
    else
      match rest.drop ds.length with
      | '>' :: _ => some ('<' :: '@' :: '&' :: (ds ++ ['>']))
      | _ => none
  | _ => none

/-- Global regex scanning: collect non-overlapping matches left to right; n
counts characters of a found match still to skip. -/
def scanMatches (tryM : List Char → Option (List Char)) : ℕ → List Char → List (List Char)
  | _, [] => []
  | Nat.succ n, _ :: t => scanMatches tryM n t
  | 0, s@(_ :: t) =>
    match tryM s with
    | some m => m :: scanMatches tryM (m.length - 1) t
    | none => scanMatches tryM 0 t

/-- MessageProcessor.extractMentions: user, channel and role mention matches
of the raw content, concatenated in that order. -/
def extractMentions (content : List Char) : List (List Char) :=
  scanMatches tryUserMention 0 content ++ scanMatches tryChannelMention 0 content ++
    scanMatches tryRoleMention 0 content

def cryptoTerms : List (List Char) :=
  [Str "defi", Str "nft", Str "dao", Str "dex", Str "cex", Str "yield", Str "farming",
   Str "staking", Str "liquidity", Str "pool", Str "swap", Str "bridge", Str "airdrop",
   Str "whitelist", Str "mint", Str "burn", Str "hodl", Str "diamond", Str "hands",
   Str "moon", Str "lambo", Str "bullish", Str "bearish", Str "pump", Str "dump",
   Str "rug", Str "pull", Str "fud", Str "fomo", Str "ath", Str "atl", Str "mcap",
   Str "tvl", Str "apr", Str "apy"]

def technicalTerms : List (List Char) :=
  [Str "blockchain", Str "smart", Str "contract", Str "consensus", Str "validator",
   Str "node", Str "hash", Str "merkle", Str "tree", Str "proof", Str "stake", Str "work",
   Str "layer", Str "scaling", Str "sharding", Str "rollup", Str "sidechain",
   Str "interoperability", Str "oracle", Str "governance", Str "tokenomics"]

structure CryptoAnalysis where
  cryptoMentions : List (List Char)
  technicalTerms : List (List Char)
  priceDiscussion : Bool
  tradingSignals : List (List Char)
  projectUpdates : List (List Char)
deriving DecidableEq

/-- A position satisfies p somewhere in the text (regex test semantics). -/
def anyPosition (p : List Char → Bool) : List Char → Bool
  | [] => p []
  | s@(_ :: t) => p s || anyPosition p t

/-- The dollar price pattern at a position: the dollar sign followed by at
least one digit or comma (its optional fraction tail always matches). -/
def priceP1At (s : List Char) : Bool :=
  match s with
  | '$' :: c :: _ => c.isDigit || c = ','
  | _ => false

/-- The decimal-quote pattern at a position: digits, a dot, digits, optional
whitespace, then one of the currency words; the alternatives usdt/usdc are
subsumed by the usd head for existence testing. -/
def priceP2At (s : List Char) : Bool :=
  let d1 := s.takeWhile Char.isDigit
  if d1 = [] then false
  else
    match s.drop d1.length with
    | '.' :: r2 =>
      let d2 := r2.takeWhile Char.isDigit
      if d2 = [] then false
      else
        let r3 := (r2.drop d2.length).dropWhile Char.isWhitespace
        (Str "usd").isPrefixOf r3 || (Str "eth").isPrefixOf r3 || (Str "btc").isPrefixOf r3
    | _ => false

/-- The price target/prediction/forecast pattern at a position. -/
def priceP3At (s : List Char) : Bool :=
  if (Str "price").isPrefixOf s then
    let r := (s.drop 5).dropWhile Char.isWhitespace
    (Str "target").isPrefixOf r || (Str "prediction").isPrefixOf r ||
      (Str "forecast").isPrefixOf r
  else false

/-- The n-x gain/profit/return pattern at a position. -/
def priceP4At (s : List Char) : Bool :=
  let d1 := s.takeWhile Char.isDigit
  if d1 = [] then false
  else
    match s.drop d1.length with
    | 'x' :: r2 =>
      let r3 := r2.dropWhile Char.isWhitespace
      (Str "gain").isPrefixOf r3 || (Str "profit").isPrefixOf r3 ||
        (Str "return").isPrefixOf r3
    | _ => false

/-- pricePatterns.some(p => p.test(content)) on the lowercased content. -/
def hasPriceDiscussion (content : List Char) : Bool :=
  anyPosition priceP1At content || anyPosition priceP2At content ||
    anyPosition priceP3At content || anyPosition priceP4At content

def tradingKeywords : List (List Char) :=
  [Str "buy", Str "sell", Str "long", Str "short", Str "entry", Str "exit", Str "target",
   Str "stop", Str "loss"]

def updateKeywords : List (List Char) :=
  [Str "announcement", Str "update", Str "release", Str "launch", Str "partnership",
   Str "integration"]

/-- MessageProcessor.analyzeCryptoContent. -/
def analyzeCryptoContent (content : List Char) (tokens : List (List Char)) : CryptoAnalysis :=
  { cryptoMentions := tokens.filter (fun t => t ∈ cryptoTerms)
    technicalTerms := tokens.filter (fun t => t ∈ technicalTerms)
    priceDiscussion := hasPriceDiscussion content
    tradingSignals := tokens.filter (fun t => t ∈ tradingKeywords)
    projectUpdates := tokens.filter (fun t => t ∈ updateKeywords) }

/-- MessageProcessor.assessTechnicalLevel: technical-token share scaled to
[0,10]; on an empty token list this is Math.min(NaN, 10) = NaN. -/
def assessTechnicalLevel (tokens : List (List Char)) : JSNum :=
  jminq
    (jmulq
      (jdiv ((tokens.filter (fun t => t ∈ technicalTerms)).length : ℚ) (tokens.length : ℚ))
      10)
    10

structure MessageComplexity where
  lexicalDiversity : JSNum
  avgWordLength : JSNum
  totalTokens : ℕ
  uniqueTokens : ℕ
deriving DecidableEq

/-- MessageProcessor.assessMessageComplexity. -/
def assessMessageComplexity (tokens : List (List Char)) : MessageComplexity :=
  { lexicalDiversity := jdiv ((uniqFirst [] tokens).length : ℚ) (tokens.length : ℚ)
    avgWordLength := jdiv ((tokens.map (fun t => (t.length : ℚ))).sum) (tokens.length : ℚ)
    totalTokens := tokens.length
    uniqueTokens := (uniqFirst [] tokens).length }

def urgentKeywords : List (List Char) :=
  [Str "urgent", Str "asap", Str "immediately", Str "breaking", Str "alert", Str "warning"]

/-- MessageProcessor.assessUrgency: 2 per present urgent keyword, capped at
10. -/
def assessUrgency (content : List Char) : ℕ :=
  min ((urgentKeywords.filter (fun k => textIncludes content k)).length * 2) 10

structure AnalysisResult where
  sentiment : SentimentResult
  topics : List (List Char)
  mentions : List (List Char)
  cryptoAnalysis : CryptoAnalysis
  technicalLevel : JSNum
  messageComplexity : MessageComplexity
  urgencyLevel : ℕ
deriving DecidableEq

/-- MessageProcessor.analyzeMessage: lowercase the content, tokenize, and run
the feature extractors; mentions are extracted from the raw content. -/
def analyzeMessage (afinn : List Char → ℤ) (stem : List Char → List Char)
    (weight : ℕ → ℕ → ℕ → ℚ) (priorDocs : List (List (List Char)))
    (origContent : List Char) : AnalysisResult :=
  let content := toLowerText origContent
  let tokens := tokenize content
  { sentiment := sentimentAnalyze afinn content
    topics := extractTopics stem weight priorDocs tokens
    mentions := extractMentions origContent
    cryptoAnalysis := analyzeCryptoContent content tokens
    technicalLevel := assessTechnicalLevel tokens
    messageComplexity := assessMessageComplexity tokens
    urgencyLevel := assessUrgency content }

end Analyzer

/-- C8 counterexample: on the empty content the token list is empty, so
assessTechnicalLevel computes Math.min(0/0 * 10, 10) = NaN — the technical
level is NaN, not 0.  (The concrete lexicon/stemmer/weight arguments are
irrelevant: the technical level does not depend on them.) -/
theorem c8_counterexample :
    (analyzeMessage (fun _ => 0) (fun t => t) (fun _ _ _ => 0) [] (Str "")).technicalLevel
      = JSNum.nan
    ∧ JSNum.nan ≠ JSNum.val 0 :=
  ⟨rfl, by decide⟩

/-- C8 amended: for every lexicon, stemmer and tf-idf weighting, analyzing
the empty string on a fresh analyzer returns sentiment 0 (comparative 0, no
positive/negative tokens), no topics, no mentions, an all-empty
domain-analysis record with priceDiscussion false, urgency 0 — and raises
nothing (the embedding is total) — but the technical level is NaN (0/0), not
0. -/
theorem c8_empty_content (afinn : List Char → ℤ) (stem : List Char → List Char)
    (weight : ℕ → ℕ → ℕ → ℚ) :
    (analyzeMessage afinn stem weight [] (Str "")).sentiment.score = 0
    ∧ (analyzeMessage afinn stem weight [] (Str "")).sentiment.comparative = JSNum.val 0
    ∧ (analyzeMessage afinn stem weight [] (Str "")).sentiment.positive = []
    ∧ (analyzeMessage afinn stem weight [] (Str "")).sentiment.negative = []
    ∧ (analyzeMessage afinn stem weight [] (Str "")).topics = []
    ∧ (analyzeMessage afinn stem weight [] (Str "")).mentions = []
    ∧ (analyzeMessage afinn stem weight [] (Str "")).cryptoAnalysis =
        { cryptoMentions := [], technicalTerms := [], priceDiscussion := false
          tradingSignals := [], projectUpdates := [] }
    ∧ (analyzeMessage afinn stem weight [] (Str "")).technicalLevel = JSNum.nan
    ∧ (analyzeMessage afinn stem weight [] (Str "")).urgencyLevel = 0 :=
  ⟨rfl, rfl, rfl, rfl, rfl, rfl, rfl, rfl, rfl⟩

section ContextualResponder
/- Embedding of the bot responder (src/bot/core/MessageProcessor.js with
ServerManager.shouldEngageWithUser): gating, the completion-capability call
outcome, and the fallback pools. -/

structure BotMessage where
  content : List Char
  isReplyToBot : Bool
deriving DecidableEq

structure EngageConfig where
  engagementRate : Option ℚ
deriving DecidableEq

/-- JS x || d for a possibly-absent numeric config value (a present 0 is
falsy and also yields the default). -/
def jsOrQ (x : Option ℚ) (d : ℚ) : ℚ :=
  match x with
  | none => d
  | some q => if q = 0 then d else q

/-- ServerManager.shouldEngageWithUser: questions and help requests get twice
the configured engagement rate (default 0.3); r is the Math.random draw. -/
def shouldEngageWithUser (cfg : EngageConfig) (content : List Char) (r : ℚ) : Bool :=
  let rate := jsOrQ cfg.engagementRate (3/10)
  if textIncludes content (Str "?") || textIncludes (toLowerText content) (Str "help")
      || textIncludes (toLowerText content) (Str "how")
  then decide (r < rate * 2) else decide (r < rate)

/-- MessageProcessor.shouldRespond (bot module): a reply to our bot is always
answered; otherwise the server engagement rule decides. -/
def shouldRespond (msg : BotMessage) (cfg : EngageConfig) (r : ℚ) : Bool :=
  if msg.isReplyToBot then true else shouldEngageWithUser cfg msg.content r

/-- MessageProcessor.getFallbackResponse pools, keyed by the server type; an
unknown type falls back to the general pool. -/
def fallbackPool (serverType : String) : List (List Char) :=
  if serverType = "crypto" then
    [Str "charts looking wild rn 📈", Str "hodl strong 💎", Str "to the moon 🚀"]
  else if serverType = "gaming" then
    [Str "gg bro 🎮", Str "that\x27s sick fr", Str "let\x27s gooo 🔥"]
  else if serverType = "dev" then
    [Str "code looks clean 👨‍💻", Str "nice solution!", Str "debug time lol"]
  else
    [Str "fr tho", Str "that\x27s wild", Str "ngl that\x27s cool", Str "deadass 💯"]

/-- MessageProcessor.getFallbackResponse: the uniform random pick
responses[Math.floor(Math.random() * responses.length)]; r in [0,1) is the
random draw. -/
def getFallbackResponse (serverType : String) (r : ℚ) : List Char :=
  (fallbackPool serverType).getD
    (Int.toNat ⌊r * ((fallbackPool serverType).length : ℚ)⌋) []

/-- MessageProcessor.generateResponse with the completion-capability outcome
explicit: some reply on success (trimmed, as in callGroqAPI), the fallback
pick on failure (error or timeout); the error never propagates. -/
def generateResponse (apiResult : Option (List Char)) (serverType : String) (r : ℚ) :
    List Char :=
  match apiResult with
  | some resp => textTrim resp
  | none => getFallbackResponse serverType r

/-- The gate-then-reply pipeline: the shouldRespond decision together with
the response produced when the gate passes. -/
def respondPipeline (apiResult : Option (List Char)) (msg : BotMessage) (cfg : EngageConfig)
    (serverType : String) (rGate rPick : ℚ) : Bool × Option (List Char) :=
  let s := shouldRespond msg cfg rGate
  (s, if s then some (generateResponse apiResult serverType rPick) else none)

theorem getD_mem_of_lt (l : List α) (n : ℕ) (d : α) (h : n < l.length) :
    l.getD n d ∈ l := by
  rw [List.getD_eq_getD_get?, List.get?_eq_get h]
  exact List.get_mem l n h

/-- C9: when the completion capability fails, the responder returns an
element of the fixed fallback pool for the community type, that element is
non-empty, and the shouldRespond decision does not depend on the
completion-call outcome. -/
theorem c9_fallback (serverType : String) (r : ℚ) (h0 : 0 ≤ r) (h1 : r < 1) :
    (generateResponse none serverType r ∈ fallbackPool serverType
     ∧ generateResponse none serverType r ≠ [])
    ∧ ∀ (o1 o2 : Option (List Char)) (msg : BotMessage) (cfg : EngageConfig) (rPick : ℚ),
      (respondPipeline o1 msg cfg serverType r rPick).1 =
        (respondPipeline o2 msg cfg serverType r rPick).1 := by
  constructor
  · have hnpos : 0 < (fallbackPool serverType).length := by
      unfold fallbackPool
      split_ifs <;> decide
    have hne : ∀ x ∈ fallbackPool serverType, x ≠ [] := by
      unfold fallbackPool
      split_ifs <;> decide
    have hf0 : 0 ≤ ⌊r * ((fallbackPool serverType).length : ℚ)⌋ :=
      Int.floor_nonneg.mpr (mul_nonneg h0 (Nat.cast_nonneg _))
    have hflt : ⌊r * ((fallbackPool serverType).length : ℚ)⌋ <
        ((fallbackPool serverType).length : ℤ) := by
      rw [Int.floor_lt]
      push_cast
      calc r * ((fallbackPool serverType).length : ℚ)
          < 1 * ((fallbackPool serverType).length : ℚ) := by
            exact mul_lt_mul_of_pos_right h1 (by exact_mod_cast hnpos)
        _ = ((fallbackPool serverType).length : ℚ) := one_mul _
    have hidx : Int.toNat ⌊r * ((fallbackPool serverType).length : ℚ)⌋ <
        (fallbackPool serverType).length := by omega
    have hmem : generateResponse none serverType r ∈ fallbackPool serverType :=
      getD_mem_of_lt _ _ _ hidx
    exact ⟨hmem, hne _ hmem⟩
  · intro o1 o2 msg cfg rPick
    rfl

/-- C9 witness: a concrete failing completion call on a crypto community. -/
theorem c9_fallback_witness :
    generateResponse none "crypto" (1/2) ∈ fallbackPool "crypto"
    ∧ generateResponse none "crypto" (1/2) ≠ [] :=
  (c9_fallback "crypto" (1/2) (by norm_num) (by norm_num)).1

end ContextualResponder
